import Mathlib

/-!
Shallow embedding of `src/zenodo_get.py` (zenodo_get 1.0.0), a sequential
Zenodo record downloader.  The embedding covers the checksum verifier
`check_hash` and the `__main__` control flow from the metadata fetch
onwards (lines 172-244 of the source): the md5sums branch, the wget
link-list branch, and the per-file download loop with retry, pre-check
skipping, post-download verification, deletion of invalid files and the
continue-on-error / abort policy.

External collaborators are modelled as oracles:
  * the filesystem is `FS := String → Option Content` (file name to bytes);
  * `hashAlg : String → Content → String` models `hashlib`'s digest of a
    whole file under a named algorithm (the 4096-byte chunking of the source
    streams the same bytes, so only the digest of the full content is
    observable);
  * `dl : String → Nat → Option (String × Content)` models `wget.download`:
    given a remote link and the index of the attempt, it either fails
    (raises, `none`) or returns the local file name it chose together with
    the bytes it wrote.

Observable effects are recorded in a trace of `Event`s; process
termination is an `Outcome`: `exit c` for `sys.exit(c)` (or falling off
the end of the script, exit 0), `uncaught` for an unhandled Python
exception (which surfaces as a stack trace).
-/

namespace ZenodoGet

/-- File contents (the bytes of a local file), modelled as a string. -/
abbrev Content := String

/-- The local filesystem: maps a file name to its contents, if present. -/
abbrev FS := String → Option Content

/-- Create or overwrite a file (models `open(p, 'wt')` + writes, and the
file created by `wget.download`). -/
def setFile (fs : FS) (p : String) (c : Content) : FS :=
  fun q => if q = p then some c else fs q

/-- Delete a file (models `os.remove`). -/
def delFile (fs : FS) (p : String) : FS :=
  fun q => if q = p then none else fs q

/-- Python's `s.split(':')` on the character list: splits at every colon,
keeping empty components; the result is never the empty list (the empty
string splits to `[""]`). -/
def splitColonChars : List Char → List (List Char)
  | [] => [[]]
  | a :: rest =>
    match splitColonChars rest with
    | [] => [[]]
    | s :: ss => if a = ':' then [] :: s :: ss else (a :: s) :: ss

/-- Python's `s.split(':')`. -/
def pySplitColon (s : String) : List String :=
  (splitColonChars s.data).map String.mk

/-- Embeds `check_hash(filename, checksum)` (source lines 44-56).
`algorithm, value = checksum.split(':')` succeeds exactly when the split
has two components, otherwise Python raises `ValueError` (modelled as
`none`).  If the file does not exist the pair `(value, 'invalid')` is
returned; otherwise the file is streamed through `hashlib.new(algorithm)`
and `(value, digest)` is returned. -/
def check_hash (fs : FS) (hashAlg : String → Content → String)
    (filename checksum : String) : Option (String × String) :=
  match pySplitColon checksum with
  | [algorithm, value] =>
    match fs filename with
    | none => some (value, "invalid")
    | some content => some (value, hashAlg algorithm content)
  | _ => none

/-- A filesystem operation, used to audit which effects a piece of code
performs on the local filesystem. -/
inductive FSOp where
  | readOp (p : String)
  | writeOp (p : String) (c : Content)
  | removeOp (p : String)
  deriving DecidableEq, Repr

/-- The effect of one filesystem operation on the filesystem. -/
def applyOp (fs : FS) : FSOp → FS
  | .readOp _ => fs
  | .writeOp p c => setFile fs p c
  | .removeOp p => delFile fs p

/-- The effect of a sequence of filesystem operations. -/
def applyOps (fs : FS) (ops : List FSOp) : FS :=
  ops.foldl applyOp fs

/-- The filesystem operations performed by `check_hash(filename, checksum)`
(source lines 44-56), in order: the malformed-checksum case raises before
touching the filesystem; otherwise `os.path.exists(filename)` is a read,
and when the file exists it is opened `'rb'` and read in chunks (a read). -/
def check_hash_ops (fs : FS) (filename checksum : String) : List FSOp :=
  match pySplitColon checksum with
  | [_, _] =>
    match fs filename with
    | none => [.readOp filename]
    | some _ => [.readOp filename, .readOp filename]
  | _ => []

/-- Observable events of a run (network and file side effects).
`md5Write` records the lines written to `md5sums.txt`; `stdoutLink` a link
printed to standard output in wget-'-' mode; `wgetWrite` the link lines
written to a named wget file; `download l` one invocation of
`wget.download(l)`; `sleep p` one `time.sleep(p)`; `remove f` one
`os.remove(f)`. -/
inductive Event where
  | md5Write (lines : List String)
  | stdoutLink (link : String)
  | wgetWrite (path : String) (lines : List String)
  | download (link : String)
  | sleep (pause : ℚ)
  | remove (filename : String)
  deriving DecidableEq, Repr

/-- How the process terminates: `sys.exit c` (falling off the end of the
script is `exit 0`), or an unhandled exception propagating to the top
level (Python prints a stack trace). -/
inductive Outcome where
  | exit (code : Nat)
  | uncaught
  deriving DecidableEq, Repr

/-- The option values produced by the `optparse` configuration
(source lines 61-135) that the post-metadata control flow reads.
`md5` is an `Option Bool` because the source tests it with `is not None`;
the parser itself can only ever store `False` (the default) or `True`
(flag given), see `parse_md5`. -/
structure Options where
  md5 : Option Bool
  wget : Option String
  error : Bool
  keep : Bool
  cont : Bool
  retry : Nat
  pause : ℚ

/-- The value `optparse` stores in `options.md5` (source lines 86-91):
`action='store_true'` with `default=False`, so the attribute is `False`
when the flag is absent and `True` when it is given — never `None`. -/
def parse_md5 (flagGiven : Bool) : Option Bool :=
  some flagGiven

/-- Python's `x is not None` on the stored option value. -/
def isNotNone (v : Option Bool) : Bool :=
  v.isSome

/-- One file object of the record metadata; each field is `Option`al so
that a missing JSON key (Python `KeyError`) can be represented.
`links_self` collapses `f['links']['self']`. -/
structure RawFile where
  size : Option Nat
  key : Option String
  checksum : Option String
  links_self : Option String

/-- The parsed JSON body of the record: `js['files']`. -/
structure RawRecord where
  files : Option (List RawFile)

/-- Embeds `total_size = sum(f['size'] for f in files)` (source line 177);
`none` when some file lacks `'size'` (a `KeyError` inside `sum`). -/
def total_size : List RawFile → Option Nat
  | [] => some 0
  | f :: rest =>
    match f.size with
    | none => none
    | some s => (total_size rest).map (s + ·)

/-- The lines written to `md5sums.txt` (source lines 180-184):
`'{}  {}\n'.format(f['checksum'].split(':')[-1], f['key'])` per file, in
manifest order.  Returns the lines produced before a missing `'key'` or
`'checksum'` raises, and whether the whole manifest was processed. -/
def md5Lines : List RawFile → List String × Bool
  | [] => ([], true)
  | f :: rest =>
    match f.key with
    | none => ([], false)
    | some fname =>
      match f.checksum with
      | none => ([], false)
      | some checksum =>
        let line := ((pySplitColon checksum).getLastD "") ++ "  " ++ fname
        let r := md5Lines rest
        (line :: r.1, r.2)

/-- The remote links of the manifest (`f['links']['self']`, source lines
188-195), with the produced prefix and a completion flag as in
`md5Lines`. -/
def linkLines : List RawFile → List String × Bool
  | [] => ([], true)
  | f :: rest =>
    match f.links_self with
    | none => ([], false)
    | some link =>
      let r := linkLines rest
      (link :: r.1, r.2)

/-- Render written lines as file contents (each line is terminated by a
newline by the `.write('...\n')` calls). -/
def renderLines (lines : List String) : Content :=
  String.join (lines.map (fun l => l ++ "\n"))

/-- The retry subloop (source lines 212-219):
`for _ in range(options.retry+1): try: filename = wget.download(link)
except: eprint; time.sleep(options.pause) else: break`.
`attempts` is how many loop iterations remain, `idx` the index of the next
attempt (the oracle `dl` is consulted at successive indices).  Returns the
event trace of the subloop and `some (filename, content)` when an attempt
succeeded (the `break`), `none` when the range was exhausted (Python then
takes the `for`/`else` branch). -/
def retryLoop (dl : String → Nat → Option (String × Content)) (pause : ℚ)
    (link : String) : Nat → Nat → List Event × Option (String × Content)
  | 0, _ => ([], none)
  | attempts + 1, idx =>
    match dl link idx with
    | some fc => ([.download link], some fc)
    | none =>
      let r := retryLoop dl pause link attempts (idx + 1)
      (.download link :: .sleep pause :: r.1, r.2)

/-- What processing one file of the manifest decides for the rest of the
run: go on to the next file (`continue` / normal fall-through), abort the
whole process (`sys.exit code`), or propagate an unhandled exception. -/
inductive FileResult where
  | next
  | abort (code : Nat)
  | err
  deriving DecidableEq, Repr

/-- The body of the download loop for one file `f` (source lines 198-240):
read `f['links']['self']`, `f['size']`, `f['key']`, `f['checksum']` (a
missing key raises); pre-check with `check_hash(fname, checksum)` and skip
when the digests match and `options.cont` holds; otherwise download with
retry; on exhaustion abort with exit 0 (`options.error` unset) or skip;
on success post-check `check_hash(filename, checksum)` on the name
returned by `wget.download`; on mismatch delete the file unless
`options.keep`, then abort with exit 1 (`options.error` unset) or
continue.  Returns the event trace, the updated filesystem and the
decision. -/
def processFile (opts : Options) (dl : String → Nat → Option (String × Content))
    (hashAlg : String → Content → String) (fs : FS) (f : RawFile) :
    List Event × FS × FileResult :=
  match f.links_self with
  | none => ([], fs, .err)
  | some link =>
    match f.size with
    | none => ([], fs, .err)
    | some _ =>
      match f.key with
      | none => ([], fs, .err)
      | some fname =>
        match f.checksum with
        | none => ([], fs, .err)
        | some checksum =>
          match check_hash fs hashAlg fname checksum with
          | none => ([], fs, .err)
          | some (remote_hash, local_hash) =>
            if remote_hash = local_hash ∧ opts.cont then
              ([], fs, .next)
            else
              let r := retryLoop dl opts.pause link (opts.retry + 1) 0
              match r.2 with
              | none =>
                if opts.error = false then (r.1, fs, .abort 0)
                else (r.1, fs, .next)
              | some (filename, content) =>
                let fs1 := setFile fs filename content
                match check_hash fs1 hashAlg filename checksum with
                | none => (r.1, fs1, .err)
                | some (h1, h2) =>
                  if h1 = h2 then (r.1, fs1, .next)
                  else
                    if opts.keep = false then
                      let fs2 := delFile fs1 filename
                      if opts.error = false then
                        (r.1 ++ [.remove filename], fs2, .abort 1)
                      else (r.1 ++ [.remove filename], fs2, .next)
                    else
                      if opts.error = false then (r.1, fs1, .abort 1)
                      else (r.1, fs1, .next)

/-- The download loop over the manifest (source lines 198-241): process
each file in order; `FileResult.abort c` terminates the whole loop with
`sys.exit c`; `FileResult.err` propagates the exception; after the last
file the completion notice is printed and the script ends (exit 0). -/
def downloadLoop (opts : Options) (dl : String → Nat → Option (String × Content))
    (hashAlg : String → Content → String) : FS → List RawFile →
    List Event × FS × Outcome
  | fs, [] => ([], fs, .exit 0)
  | fs, f :: rest =>
    let p := processFile opts dl hashAlg fs f
    match p.2.2 with
    | .next =>
      let r := downloadLoop opts dl hashAlg p.2.1 rest
      (p.1 ++ r.1, r.2)
    | .abort c => (p.1, p.2.1, .exit c)
    | .err => (p.1, p.2.1, .uncaught)

/-- The branch on `options.wget` (source lines 186-241): when set, emit
the link list (to stdout for the sentinel `'-'`, else to the named file)
and end the script (exit 0); a missing `'links'`/`'self'` key raises.
When unset, run the download loop. -/
def wgetOrLoop (opts : Options) (dl : String → Nat → Option (String × Content))
    (hashAlg : String → Content → String) (fs : FS) (files : List RawFile) :
    List Event × FS × Outcome :=
  match opts.wget with
  | some w =>
    let r := linkLines files
    if w = "-" then
      (r.1.map Event.stdoutLink, fs, if r.2 then .exit 0 else .uncaught)
    else
      ([.wgetWrite w r.1], setFile fs w (renderLines r.1),
        if r.2 then .exit 0 else .uncaught)
  | none => downloadLoop opts dl hashAlg fs files

/-- The `__main__` control flow from the metadata request onwards
(source lines 172-244).  `metadataOk` is `r.ok` of the
`GET {base}/api/records/{id}`; on failure the program prints a message and
exits 1.  On success the JSON body (`record`) is read: `js['files']`,
`total_size` (missing keys raise), then — because
`options.md5 is not None` — the md5sums branch, then the wget branch or
the download loop. -/
def runMain (opts : Options) (dl : String → Nat → Option (String × Content))
    (hashAlg : String → Content → String) (fs : FS) (metadataOk : Bool)
    (record : RawRecord) : List Event × FS × Outcome :=
  if metadataOk = false then ([], fs, .exit 1)
  else
    match record.files with
    | none => ([], fs, .uncaught)
    | some files =>
      match total_size files with
      | none => ([], fs, .uncaught)
      | some _ =>
        if isNotNone opts.md5 then
          let m := md5Lines files
          let fs1 := setFile fs "md5sums.txt" (renderLines m.1)
          if m.2 = false then ([.md5Write m.1], fs1, .uncaught)
          else
            let r := wgetOrLoop opts dl hashAlg fs1 files
            (.md5Write m.1 :: r.1, r.2)
        else
          wgetOrLoop opts dl hashAlg fs files

/-! ### Helper lemmas -/

/-- The function `splitColonChars` never returns the empty list. -/
theorem splitColonChars_ne_nil (l : List Char) : splitColonChars l ≠ [] := by
  cases l with
  | nil => simp [splitColonChars]
  | cons a rest =>
    simp only [splitColonChars]
    cases h : splitColonChars rest with
    | nil => simp
    | cons s ss =>
      by_cases hc : a = ':' <;> simp [hc]

/-- A colon-free character list splits to itself alone. -/
theorem splitColonChars_noColon (l : List Char) (h : ∀ c ∈ l, c ≠ ':') :
    splitColonChars l = [l] := by
  induction l with
  | nil => rfl
  | cons a rest ih =>
    have ha : a ≠ ':' := h a (List.mem_cons_self a rest)
    have hrest : ∀ c ∈ rest, c ≠ ':' := fun c hc => h c (List.mem_cons_of_mem a hc)
    simp only [splitColonChars, ih hrest]
    simp [ha]

/-- Splitting `A ++ ':' :: V` where `A` is colon-free prepends `A` to the
split of `V`. -/
theorem splitColonChars_append (A V : List Char) (hA : ∀ c ∈ A, c ≠ ':') :
    splitColonChars (A ++ ':' :: V) = A :: splitColonChars V := by
  induction A with
  | nil =>
    simp only [List.nil_append, splitColonChars]
    cases h : splitColonChars V with
    | nil => exact absurd h (splitColonChars_ne_nil V)
    | cons s ss => simp
  | cons a A ih =>
    have ha : a ≠ ':' := hA a (List.mem_cons_self a A)
    have hA2 : ∀ c ∈ A, c ≠ ':' := fun c hc => hA c (List.mem_cons_of_mem a hc)
    simp only [List.cons_append, splitColonChars, List.append_eq]
    rw [ih hA2]
    simp [ha]

/-- A character that may appear in a hexadecimal digest. -/
def isHexChar (c : Char) : Bool :=
  c.isDigit || ('a' ≤ c && c ≤ 'f') || ('A' ≤ c && c ≤ 'F')

/-- A checksum string `"{algorithm}:{hexdigest}"` whose two components are
colon-free splits into exactly those two components. -/
theorem pySplitColon_wellFormed (algorithm value : String)
    (hA : ∀ c ∈ algorithm.data, c ≠ ':') (hV : ∀ c ∈ value.data, c ≠ ':') :
    pySplitColon (algorithm ++ ":" ++ value) = [algorithm, value] := by
  have hdata : (algorithm ++ ":" ++ value).data = algorithm.data ++ ':' :: value.data := by
    simp [String.data_append]
  unfold pySplitColon
  rw [hdata, splitColonChars_append _ _ hA, splitColonChars_noColon _ hV]
  simp only [List.map]

/-! ### Claim theorems -/

/-- C7: for every checksum string of the form `"{algorithm}:{hexdigest}"`
(components colon-free, digest hexadecimal) and every path that does not
exist on the local filesystem, `check_hash` returns the pair
`(expected hexdigest, "invalid")`, and the expected digest can never equal
the sentinel, so the caller's equality comparison always fails. -/
theorem check_hash_missing_file (fs : FS) (hashAlg : String → Content → String)
    (filename algorithm value : String)
    (hA : ∀ c ∈ algorithm.data, c ≠ ':')
    (hhex : value.data.all isHexChar = true)
    (hmiss : fs filename = none) :
    check_hash fs hashAlg filename (algorithm ++ ":" ++ value) = some (value, "invalid")
      ∧ value ≠ "invalid" := by
  have hV : ∀ c ∈ value.data, c ≠ ':' := by
    intro c hc hceq
    have hx := List.all_eq_true.mp hhex c hc
    rw [hceq] at hx
    exact absurd hx (by decide)
  constructor
  · unfold check_hash
    rw [pySplitColon_wellFormed algorithm value hA hV]
    rw [hmiss]
  · intro hval
    rw [hval] at hhex
    exact absurd hhex (by decide)

/-- C7 witness: a concrete missing file and well-formed checksum. -/
theorem check_hash_missing_file_witness :
    check_hash (fun _ => none) (fun _ _ => "aa") "data.bin" ("md5" ++ ":" ++ "0f1e2d")
        = some ("0f1e2d", "invalid") ∧ "0f1e2d" ≠ "invalid" :=
  check_hash_missing_file (fun _ => none) (fun _ _ => "aa") "data.bin" "md5" "0f1e2d"
    (by decide) (by decide) rfl

/-- C10: `check_hash` never modifies the filesystem: the filesystem
operations it performs are all reads, and applying them leaves every
file's contents and existence unchanged. -/
theorem check_hash_pure (fs : FS) (filename checksum : String) :
    applyOps fs (check_hash_ops fs filename checksum) = fs ∧
    ∀ op ∈ check_hash_ops fs filename checksum, ∃ p, op = FSOp.readOp p := by
  unfold check_hash_ops
  cases hl : pySplitColon checksum with
  | nil => simp [applyOps]
  | cons a t =>
    cases t with
    | nil => simp [applyOps]
    | cons b t2 =>
      cases t2 with
      | nil =>
        cases hf : fs filename with
        | none => simp [applyOps, applyOp]
        | some c => simp [applyOps, applyOp]
      | cons c t3 => simp [applyOps]

/-! ### Concrete inputs shared by counterexamples and witnesses -/

/-- The empty working directory. -/
def fs0 : FS := fun _ => none

/-- A hash oracle: digest `"aa"` for the content `"GOOD"`, `"zz"` otherwise. -/
def hashX : String → Content → String := fun _ c => if c = "GOOD" then "aa" else "zz"

/-- A download oracle whose every attempt fails. -/
def dlNone : String → Nat → Option (String × Content) := fun _ _ => none

/-- A download oracle that succeeds on link `"L"`, writing `"GOOD"` to `a.txt`. -/
def dlGood : String → Nat → Option (String × Content) := fun l _ =>
  if l = "L" then some ("a.txt", "GOOD") else none

/-- A download oracle that succeeds on link `"L"`, writing `"BAD"` to `a.txt`. -/
def dlBad : String → Nat → Option (String × Content) := fun l _ =>
  if l = "L" then some ("a.txt", "BAD") else none

/-- All options at their `optparse` defaults (no flag given). -/
def optsDefault : Options :=
  { md5 := parse_md5 false, wget := none, error := false,
    keep := false, cont := true, retry := 0, pause := 1/2 }

/-- A well-formed manifest entry for link `"L"`. -/
def fileL : RawFile :=
  { size := some 4, key := some "a.txt",
    checksum := some "md5:aa", links_self := some "L" }

/-- A second well-formed manifest entry. -/
def fileM : RawFile :=
  { size := some 4, key := some "b.txt",
    checksum := some "md5:aa", links_self := some "M" }

/-- A manifest entry whose checksum string contains no colon. -/
def fileNoColon : RawFile :=
  { size := some 4, key := some "d.bin",
    checksum := some "deadbeef", links_self := some "LD" }

/-- A manifest entry with no `'size'` key. -/
def fileNoSize : RawFile :=
  { size := none, key := some "a.txt",
    checksum := some "md5:aa", links_self := some "L" }

/-- C8 counterexample: on a manifest whose only file carries the colon-free
checksum `"deadbeef"`, the run ends as an unhandled exception (Python
prints a raw stack trace), not as a reported failure exit — refuting that
verification fails "with a defined error ... not a raw stack trace". -/
theorem malformed_checksum_counterexample :
    (runMain optsDefault dlNone hashX fs0 true
        { files := some [fileNoColon] }).2.2 = Outcome.uncaught := by rfl

/-- C8 (amended): for every checksum string containing no colon,
`check_hash` raises (it never returns a digest pair, so no pair can
silently compare equal), and a manifest file carrying such a checksum
aborts the run with an unhandled exception — a raw stack trace, not a
defined reported error. -/
theorem malformed_checksum_raises (opts : Options)
    (dl : String → Nat → Option (String × Content))
    (hashAlg : String → Content → String) (fs : FS)
    (f : RawFile) (rest : List RawFile) (link : String) (size : Nat)
    (fname checksum : String)
    (hnc : ∀ c ∈ checksum.data, c ≠ ':')
    (hl : f.links_self = some link) (hs : f.size = some size)
    (hk : f.key = some fname) (hc : f.checksum = some checksum) :
    check_hash fs hashAlg fname checksum = none ∧
    downloadLoop opts dl hashAlg fs (f :: rest) = ([], fs, Outcome.uncaught) := by
  have hsplit : pySplitColon checksum = [checksum] := by
    unfold pySplitColon
    rw [splitColonChars_noColon checksum.data hnc]
    simp only [List.map]
  have hch : check_hash fs hashAlg fname checksum = none := by
    unfold check_hash
    rw [hsplit]
  refine ⟨hch, ?_⟩
  have hpf : processFile opts dl hashAlg fs f = ([], fs, FileResult.err) := by
    simp only [processFile, hl, hs, hk, hc, hch]
  simp only [downloadLoop, hpf]

/-- C8 witness: the amended claim at the concrete colon-free checksum. -/
theorem malformed_checksum_raises_witness :
    check_hash fs0 hashX "d.bin" "deadbeef" = none ∧
    downloadLoop optsDefault dlNone hashX fs0 [fileNoColon] =
      ([], fs0, Outcome.uncaught) :=
  malformed_checksum_raises optsDefault dlNone hashX fs0 fileNoColon []
    "LD" 4 "d.bin" "deadbeef" (by decide) rfl rfl rfl rfl

/-- A file of the manifest with a missing `'size'` key makes
`sum(f['size'] for f in files)` raise. -/
theorem total_size_missing (files : List RawFile) (f : RawFile)
    (hmem : f ∈ files) (hsize : f.size = none) : total_size files = none := by
  induction files with
  | nil => cases hmem
  | cons g rest ih =>
    cases hmem with
    | head => simp [total_size, hsize]
    | tail _ hm =>
      unfold total_size
      cases hg : g.size with
      | none => rfl
      | some s => rw [ih hm]; rfl

/-- C9 counterexample: with the metadata fetch succeeding but the only
file lacking the `'size'` key, the run ends as an unhandled exception
(raw stack trace), not with a MetadataMalformed message. -/
theorem missing_field_counterexample :
    (runMain optsDefault dlNone hashX fs0 true
        { files := some [fileNoSize] }).2.2 = Outcome.uncaught := by rfl

/-- C9 (amended): when the metadata fetch succeeds but some file of the
manifest lacks its `'size'` field, the program does not silently default:
it aborts with an unhandled `KeyError` — a raw stack trace, not a defined
MetadataMalformed condition with a human-readable message. -/
theorem missing_field_raises (opts : Options)
    (dl : String → Nat → Option (String × Content))
    (hashAlg : String → Content → String) (fs : FS)
    (record : RawRecord) (files : List RawFile) (f : RawFile)
    (hfiles : record.files = some files)
    (hmem : f ∈ files) (hsize : f.size = none) :
    total_size files = none ∧
    runMain opts dl hashAlg fs true record = ([], fs, Outcome.uncaught) := by
  have ht := total_size_missing files f hmem hsize
  refine ⟨ht, ?_⟩
  unfold runMain
  simp only [hfiles, ht]
  rfl

/-- Recognise a download invocation in the event trace. -/
def isDownloadEv : Event → Bool
  | .download _ => true
  | _ => false

/-- With every attempt failing, the retry subloop runs all its remaining
iterations, each one download invocation followed by one sleep, and ends
in the `for`/`else` branch. -/
theorem retryLoop_all_fail (dl : String → Nat → Option (String × Content))
    (pause : ℚ) (link : String) (hfail : ∀ i, dl link i = none) :
    ∀ attempts idx, retryLoop dl pause link attempts idx =
      ((List.replicate attempts [Event.download link, Event.sleep pause]).flatten, none) := by
  intro attempts
  induction attempts with
  | zero => intro idx; rfl
  | succ n ih =>
    intro idx
    simp only [retryLoop, hfail idx, ih (idx + 1), List.replicate_succ,
      List.flatten_cons, List.cons_append, List.nil_append]

/-- Counting the download invocations in the all-fail trace. -/
theorem count_download_all_fail (pause : ℚ) (link : String) :
    ∀ n, ((List.replicate n [Event.download link, Event.sleep pause]).flatten).countP
      isDownloadEv = n := by
  intro n
  induction n with
  | zero => rfl
  | succ m ih =>
    simp [List.replicate_succ, List.flatten_cons, List.countP_cons, ih, isDownloadEv]

/-- C5: for every file link and configured retry count `N` (the loop runs
`range(N+1)`), when every download attempt fails the download collaborator
is invoked exactly `N+1` times, each failed attempt followed by a sleep of
`pause` seconds, before the subloop ends in the retry-exhaustion
(`for`/`else`) branch; and for any oracle whose next attempt succeeds, the
subloop ends immediately after that single invocation. -/
theorem retry_attempt_count (dl dl2 : String → Nat → Option (String × Content))
    (pause : ℚ) (link : String) (N n idx : Nat) (fc : String × Content)
    (hfail : ∀ i, dl link i = none)
    (hsucc : dl2 link idx = some fc) :
    retryLoop dl pause link (N + 1) 0 =
      ((List.replicate (N + 1) [Event.download link, Event.sleep pause]).flatten, none) ∧
    (retryLoop dl pause link (N + 1) 0).1.countP isDownloadEv = N + 1 ∧
    retryLoop dl2 pause link (n + 1) idx = ([Event.download link], some fc) := by
  have h1 := retryLoop_all_fail dl pause link hfail (N + 1) 0
  refine ⟨h1, ?_, ?_⟩
  · rw [h1]
    exact count_download_all_fail pause link (N + 1)
  · simp only [retryLoop, hsucc]

/-- C5 witness: the claim at retry count 2 (all attempts fail) and a
first-attempt success. -/
theorem retry_attempt_count_witness :
    retryLoop dlNone (1/2) "L" (2 + 1) 0 =
      ((List.replicate (2 + 1) [Event.download "L", Event.sleep (1/2)]).flatten, none) ∧
    (retryLoop dlNone (1/2) "L" (2 + 1) 0).1.countP isDownloadEv = 2 + 1 ∧
    retryLoop dlGood (1/2) "L" (5 + 1) 0 = ([Event.download "L"], some ("a.txt", "GOOD")) :=
  retry_attempt_count dlNone dlGood (1/2) "L" 2 5 0 ("a.txt", "GOOD")
    (fun _ => rfl) rfl

/-- C3 counterexample: with `continue-on-error` unset, retry count 0 and a
download that fails every attempt on the first of two files, the run
terminates with exit code 0 (`sys.exit(0)`, source line 223) — refuting
the claimed non-zero exit code. -/
theorem retry_exhaustion_exit_counterexample :
    (runMain optsDefault dlNone hashX fs0 true
        { files := some [fileL, fileM] }).2.2 = Outcome.exit 0 := by rfl

/-- C3 (amended): when all download attempts for a file are exhausted and
`continue-on-error` is unset, the process stops processing the remaining
files (the result does not depend on them and contains none of their
events) and terminates via `sys.exit(0)` — exit code 0, not non-zero. -/
theorem retry_exhaustion_aborts (opts : Options)
    (dl : String → Nat → Option (String × Content))
    (hashAlg : String → Content → String) (fs : FS)
    (f : RawFile) (rest : List RawFile) (link fname checksum rh lh : String)
    (size : Nat)
    (hl : f.links_self = some link) (hs : f.size = some size)
    (hk : f.key = some fname) (hc : f.checksum = some checksum)
    (hpre : check_hash fs hashAlg fname checksum = some (rh, lh))
    (hskip : ¬(rh = lh ∧ opts.cont = true))
    (hfail : ∀ i, dl link i = none)
    (herr : opts.error = false) :
    downloadLoop opts dl hashAlg fs (f :: rest) =
      ((List.replicate (opts.retry + 1) [Event.download link, Event.sleep opts.pause]).flatten,
        fs, Outcome.exit 0) := by
  have hr := retryLoop_all_fail dl opts.pause link hfail (opts.retry + 1) 0
  have hpf : processFile opts dl hashAlg fs f =
      ((List.replicate (opts.retry + 1) [Event.download link, Event.sleep opts.pause]).flatten,
        fs, FileResult.abort 0) := by
    simp only [processFile, hl, hs, hk, hc, hpre]
    rw [if_neg hskip]
    simp [hr, herr]
  simp only [downloadLoop, hpf]

/-- C3 witness: the amended claim at a concrete two-file manifest whose
first file's downloads all fail. -/
theorem retry_exhaustion_aborts_witness :
    downloadLoop optsDefault dlNone hashX fs0 (fileL :: [fileM]) =
      ((List.replicate (optsDefault.retry + 1)
          [Event.download "L", Event.sleep optsDefault.pause]).flatten,
        fs0, Outcome.exit 0) :=
  retry_exhaustion_aborts optsDefault dlNone hashX fs0 fileL [fileM]
    "L" "a.txt" "md5:aa" "aa" "invalid" 4 rfl rfl rfl rfl rfl
    (by decide) (fun _ => rfl) rfl

/-- C4: with `continue-on-error` unset, a post-download checksum mismatch
terminates the whole process immediately with exit code 1: the loop's
result is the failing file's own trace and filesystem with `exit 1`, for
every tail of remaining files — so no later file is attempted. -/
theorem mismatch_aborts (opts : Options)
    (dl : String → Nat → Option (String × Content))
    (hashAlg : String → Content → String) (fs : FS)
    (f : RawFile) (rest : List RawFile)
    (link fname checksum rh lh : String) (size : Nat)
    (tr : List Event) (filename : String) (content : Content) (h1 h2 : String)
    (hl : f.links_self = some link) (hs : f.size = some size)
    (hk : f.key = some fname) (hc : f.checksum = some checksum)
    (hpre : check_hash fs hashAlg fname checksum = some (rh, lh))
    (hskip : ¬(rh = lh ∧ opts.cont = true))
    (hdl : retryLoop dl opts.pause link (opts.retry + 1) 0 = (tr, some (filename, content)))
    (hpost : check_hash (setFile fs filename content) hashAlg filename checksum
      = some (h1, h2))
    (hne : ¬(h1 = h2))
    (herr : opts.error = false) :
    downloadLoop opts dl hashAlg fs (f :: rest) =
      ((processFile opts dl hashAlg fs f).1, (processFile opts dl hashAlg fs f).2.1,
        Outcome.exit 1) := by
  have hpf2 : (processFile opts dl hashAlg fs f).2.2 = FileResult.abort 1 := by
    cases hkp : opts.keep <;>
      simp [processFile, hl, hs, hk, hc, hpre, hskip, hdl, hpost, hne, herr, hkp]
  simp only [downloadLoop]
  rw [hpf2]

/-- C4 witness: a concrete download whose bytes hash to the wrong digest,
with a second file never attempted. -/
theorem mismatch_aborts_witness :
    downloadLoop optsDefault dlBad hashX fs0 (fileL :: [fileM]) =
      ((processFile optsDefault dlBad hashX fs0 fileL).1,
        (processFile optsDefault dlBad hashX fs0 fileL).2.1, Outcome.exit 1) :=
  mismatch_aborts optsDefault dlBad hashX fs0 fileL [fileM]
    "L" "a.txt" "md5:aa" "aa" "invalid" 4 [Event.download "L"] "a.txt" "BAD" "aa" "zz"
    rfl rfl rfl rfl rfl (by decide) rfl rfl (by decide) rfl

/-- C6: in continue mode (the default), a file already present locally
whose computed digest equals the expected digest is skipped with no events
at all (in particular no download invocation), and the loop's result on
the whole manifest equals its result on the remaining files. -/
theorem precheck_skip (opts : Options)
    (dl : String → Nat → Option (String × Content))
    (hashAlg : String → Content → String) (fs : FS)
    (f : RawFile) (rest : List RawFile)
    (link fname checksum alg expected : String) (size : Nat) (content : Content)
    (hl : f.links_self = some link) (hs : f.size = some size)
    (hk : f.key = some fname) (hc : f.checksum = some checksum)
    (hcont : opts.cont = true)
    (hsplit : pySplitColon checksum = [alg, expected])
    (hpresent : fs fname = some content)
    (hmatch : hashAlg alg content = expected) :
    processFile opts dl hashAlg fs f = ([], fs, FileResult.next) ∧
    downloadLoop opts dl hashAlg fs (f :: rest) = downloadLoop opts dl hashAlg fs rest := by
  have hch : check_hash fs hashAlg fname checksum = some (expected, expected) := by
    simp only [check_hash, hsplit, hpresent, hmatch]
  have hpf : processFile opts dl hashAlg fs f = ([], fs, FileResult.next) := by
    simp [processFile, hl, hs, hk, hc, hch, hcont]
  refine ⟨hpf, ?_⟩
  simp only [downloadLoop, hpf]
  simp

/-- The working directory after `a.txt` was downloaded correctly. -/
def fsA : FS := setFile fs0 "a.txt" "GOOD"

/-- C6 witness: re-running on a correctly downloaded file is a no-op for
that file. -/
theorem precheck_skip_witness :
    processFile optsDefault dlNone hashX fsA fileL = ([], fsA, FileResult.next) ∧
    downloadLoop optsDefault dlNone hashX fsA (fileL :: []) =
      downloadLoop optsDefault dlNone hashX fsA [] :=
  precheck_skip optsDefault dlNone hashX fsA fileL []
    "L" "a.txt" "md5:aa" "md5" "aa" 4 "GOOD"
    rfl rfl rfl rfl rfl rfl rfl rfl

/-- When the md5sums write completes, it has one line per manifest file. -/
theorem md5Lines_length (files : List RawFile) (hok : (md5Lines files).2 = true) :
    (md5Lines files).1.length = files.length := by
  induction files with
  | nil => rfl
  | cons f rest ih =>
    cases hk : f.key with
    | none => simp [md5Lines, hk] at hok
    | some fname =>
      cases hc : f.checksum with
      | none => simp [md5Lines, hk, hc] at hok
      | some cs =>
        have h2 : (md5Lines rest).2 = true := by
          simpa [md5Lines, hk, hc] using hok
        simp [md5Lines, hk, hc, ih h2]

/-- C2: for every run in which the metadata fetch succeeds (and the
manifest parses), `md5sums.txt` is created or overwritten with one line
per manifest file regardless of the `--md5` flag's value: the guard tests
`options.md5 is not None` and the `store_true` parser stores `False` or
`True`, never `None`, so the guard always holds. -/
theorem md5sums_always_written (flagGiven : Bool) (opts : Options)
    (dl : String → Nat → Option (String × Content))
    (hashAlg : String → Content → String) (fs : FS)
    (record : RawRecord) (files : List RawFile) (ts : Nat)
    (hmd5 : opts.md5 = parse_md5 flagGiven)
    (hfiles : record.files = some files)
    (hts : total_size files = some ts)
    (hok : (md5Lines files).2 = true) :
    isNotNone opts.md5 = true ∧
    (md5Lines files).1.length = files.length ∧
    runMain opts dl hashAlg fs true record =
      (Event.md5Write (md5Lines files).1 ::
          (wgetOrLoop opts dl hashAlg
            (setFile fs "md5sums.txt" (renderLines (md5Lines files).1)) files).1,
        (wgetOrLoop opts dl hashAlg
          (setFile fs "md5sums.txt" (renderLines (md5Lines files).1)) files).2) := by
  have hnn : isNotNone opts.md5 = true := by rw [hmd5]; rfl
  refine ⟨hnn, md5Lines_length files hok, ?_⟩
  unfold runMain
  simp only [hfiles, hts, hnn, hok]
  simp

/-- C2 witness: the md5sums file is written even with the flag absent. -/
theorem md5sums_always_written_witness :
    isNotNone optsDefault.md5 = true ∧
    (md5Lines [fileL]).1.length = [fileL].length ∧
    runMain optsDefault dlGood hashX fs0 true { files := some [fileL] } =
      (Event.md5Write (md5Lines [fileL]).1 ::
          (wgetOrLoop optsDefault dlGood hashX
            (setFile fs0 "md5sums.txt" (renderLines (md5Lines [fileL]).1)) [fileL]).1,
        (wgetOrLoop optsDefault dlGood hashX
          (setFile fs0 "md5sums.txt" (renderLines (md5Lines [fileL]).1)) [fileL]).2) :=
  md5sums_always_written false optsDefault dlGood hashX fs0
    { files := some [fileL] } [fileL] 4 rfl rfl rfl rfl

/-- Options with the `--md5` flag given and `--wget` unset. -/
def optsMd5 : Options :=
  { md5 := parse_md5 true, wget := none, error := false,
    keep := false, cont := true, retry := 0, pause := 1/2 }

/-- C1 counterexample: with the `--md5` flag set and `--wget` unset, the
run writes `md5sums.txt` and still invokes the streaming download
collaborator on the manifest's link — refuting that checksum-manifest mode
bypasses the Download Loop with no network download. -/
theorem md5_mode_downloads_counterexample :
    optsMd5.md5 = some true ∧
    (runMain optsMd5 dlGood hashX fs0 true { files := some [fileL] }).1 =
      [Event.md5Write ["aa  a.txt"], Event.download "L"] := by
  exact ⟨rfl, rfl⟩

/-- C1 (amended): if the `--md5` flag is set, the program writes
`md5sums.txt`, but the Download Loop is not bypassed: with `--wget` unset
the run continues with the Download Loop (its full event trace follows the
manifest write), so downloads can still occur. -/
theorem md5_mode_not_bypassing (opts : Options)
    (dl : String → Nat → Option (String × Content))
    (hashAlg : String → Content → String) (fs : FS)
    (record : RawRecord) (files : List RawFile) (ts : Nat)
    (hmd5 : opts.md5 = some true)
    (hwget : opts.wget = none)
    (hfiles : record.files = some files)
    (hts : total_size files = some ts)
    (hok : (md5Lines files).2 = true) :
    (runMain opts dl hashAlg fs true record).1 =
      Event.md5Write (md5Lines files).1 ::
        (downloadLoop opts dl hashAlg
          (setFile fs "md5sums.txt" (renderLines (md5Lines files).1)) files).1 := by
  have hnn : isNotNone opts.md5 = true := by rw [hmd5]; rfl
  unfold runMain
  simp only [hfiles, hts, hnn, hok, wgetOrLoop, hwget]
  simp

/-- C1 witness: the amended claim at a concrete manifest where the loop
then downloads the file. -/
theorem md5_mode_not_bypassing_witness :
    (runMain optsMd5 dlGood hashX fs0 true { files := some [fileL] }).1 =
      Event.md5Write (md5Lines [fileL]).1 ::
        (downloadLoop optsMd5 dlGood hashX
          (setFile fs0 "md5sums.txt" (renderLines (md5Lines [fileL]).1)) [fileL]).1 :=
  md5_mode_not_bypassing optsMd5 dlGood hashX fs0
    { files := some [fileL] } [fileL] 4 rfl rfl rfl rfl rfl

/-- C9 witness: the amended claim at the concrete size-less manifest. -/
theorem missing_field_raises_witness :
    total_size [fileNoSize] = none ∧
    runMain optsDefault dlNone hashX fs0 true { files := some [fileNoSize] } =
      ([], fs0, Outcome.uncaught) :=
  missing_field_raises optsDefault dlNone hashX fs0
    { files := some [fileNoSize] } [fileNoSize] fileNoSize rfl
    (List.mem_cons_self fileNoSize []) rfl

end ZenodoGet
